import Mathlib

/-!
Verification of the foraging-simulation core of ForagingTheoryv2.

The per-tick engine is `updateBuffetPlayers` in
`src/components/buffetcamera.tsx`; the 4D projector is
`Vector4.projectTo3D` in `src/components/2Dbuffet.tsx`; the caller's
post-step clamp and player initialization live in
`src/components/RaceSimulation.tsx`.

Numbers are modelled as rationals.  The three operations of the source
that are irrational over ℚ — `Math.sqrt` (used by `normalize` and by the
horizontal-distance computation), and the trigonometric
look-at/slerp quaternion update — are threaded through an explicit
environment `Env` of function parameters, so every theorem quantifying
over `Env` holds for the real-number instantiations as well.
`Math.random()` is likewise an injected stream `rand : ℕ → ℚ`, consumed
one value per draw in source order.
-/

/-- Model of `THREE.Vector3`: a 3D point/vector with rational components. -/
structure Vec3 where
  x : ℚ
  y : ℚ
  z : ℚ
deriving DecidableEq

/-- Model of `THREE.Quaternion` (components only; the trigonometric operations on
quaternions are abstracted by `Env.slerpLook`). -/
structure Quat where
  x : ℚ
  y : ℚ
  z : ℚ
  w : ℚ
deriving DecidableEq

/-- A 4D coordinate, as used by the `Vector4` subclass in `2Dbuffet.tsx`. -/
structure Vec4Q where
  x : ℚ
  y : ℚ
  z : ℚ
  w : ℚ
deriving DecidableEq

/-- The `'cube' | 'sphere' | 'triangle'` union of food shapes. -/
inductive FoodType where
  | cube
  | sphere
  | triangle
deriving DecidableEq

/-- The `Player` interface of `buffetcamera.tsx`.  The optional fields
`isJumping?` and `verticalVelocity?` are modelled as `Option`; a missing
value reads as `false` / `0` at use sites, matching JS truthiness and the
`?? 0` in the source. -/
structure Player where
  id : ℤ
  position : Vec3
  quaternion : Quat
  velocity : Vec3
  score : ℕ
  color : String
  isJumping : Option Bool
  verticalVelocity : Option ℚ
deriving DecidableEq

/-- The `FoodItem` interface of `buffetcamera.tsx`. -/
structure FoodItem where
  id : ℤ
  position : Vec3
  type : FoodType
  consumed : Bool
  color : String
deriving DecidableEq

/-- Environment of operations that are irrational over ℚ:
`sqrtQ` stands for `Math.sqrt`, `slerpLook` for the
`Matrix4.lookAt` + `setFromRotationMatrix` + `slerp(…, 0.1)` quaternion
update (arguments: current position, direction to the target, current
quaternion), and `rand` for the stream of `Math.random()` results. -/
structure Env where
  sqrtQ : ℚ → ℚ
  slerpLook : Vec3 → Vec3 → Quat → Quat
  rand : ℕ → ℚ

/-- The constant `gravity = -18` (units/sec²). -/
def gravity : ℚ := -18

/-- The constant `jumpVelocity = 8` (initial jump velocity). -/
def jumpVelocity : ℚ := 8

/-- The constant `MAP_SIZE = 40` in `RaceSimulation.tsx`. -/
def MAP_SIZE : ℚ := 40

/-- Model of `THREE.Vector3.distanceToSquared`. -/
def distanceToSquared (a b : Vec3) : ℚ :=
  (a.x - b.x) ^ 2 + (a.y - b.y) ^ 2 + (a.z - b.z) ^ 2

/-- Model of `THREE.Vector3.lengthSq`. -/
def lengthSq (v : Vec3) : ℚ :=
  v.x ^ 2 + v.y ^ 2 + v.z ^ 2

/-- The per-player deep copy at the top of `updateBuffetPlayers`:
vectors are value-copied (identity on values) and `verticalVelocity`
is normalized by `?? 0`. -/
def copyPlayer (p : Player) : Player :=
  { p with verticalVelocity := some (p.verticalVelocity.getD 0) }

/-- The consumption commit:
`updatedFoodItems.find(f => f.id === nearestFood.id)` followed by the
`!foodToConsume.consumed` re-check; the first food with a matching id is
marked consumed when still unconsumed.  Returns the updated list and
whether a consumption happened (drives `player.score += 1`). -/
def consumeFood (fid : ℤ) : List FoodItem → List FoodItem × Bool
  | [] => ([], false)
  | f :: rest =>
    if f.id = fid then
      if f.consumed then (f :: rest, false)
      else ({ f with consumed := true } :: rest, true)
    else
      let r := consumeFood fid rest
      (f :: r.1, r.2)

/-- Inner loop of the nearest-food scan: keep the current best and its
squared distance, replacing it on a strictly smaller squared distance. -/
def findNearestGo (pos : Vec3) (best : FoodItem) (bestD : ℚ) :
    List FoodItem → FoodItem
  | [] => best
  | f :: rest =>
    let d := distanceToSquared pos f.position
    if d < bestD then findNearestGo pos f d rest
    else findNearestGo pos best bestD rest

/-- The nearest-food scan of `updateBuffetPlayers` (lines 71–79): starts
from `nearestDistanceSq = Infinity`, so the first element always becomes
the initial best; ties keep the earlier element (strict `<`). -/
def findNearest (pos : Vec3) : List FoodItem → Option FoodItem
  | [] => none
  | f :: rest => some (findNearestGo pos f (distanceToSquared pos f.position) rest)

/-- The consumption check at the end of the loop body (lines 131–139 of
`buffetcamera.tsx`): if the just-updated position is within the fixed
radius 1.2 of the pre-identified nearest food, commit the consumption
(`consumeFood`) and award the point.  Returns the new score and food
list. -/
def consumeStep (pos2 : Vec3) (nf : FoodItem) (sc : ℕ)
    (foods : List FoodItem) : ℕ × List FoodItem :=
  if distanceToSquared pos2 nf.position < 6 / 5 * (6 / 5) then
    let cf := consumeFood nf.id foods
    (if cf.2 then sc + 1 else sc, cf.1)
  else (sc, foods)

/-- The body of the `forEach` in `updateBuffetPlayers`, for one player:
nearest-food search, velocity/orientation update, jump trigger, gravity
integration, horizontal integration, consumption check.  `n` is the
cursor into the `Math.random()` stream; it advances exactly when the
source draws a random speed. -/
def stepPlayer (env : Env) (delta : ℚ) (player : Player)
    (foods : List FoodItem) (n : ℕ) : Player × List FoodItem × ℕ :=
  let availableFoodItems := foods.filter (fun food => !food.consumed)
  if availableFoodItems.isEmpty then
    ({ player with velocity := ⟨0, 0, 0⟩ }, foods, n)
  else
    match findNearest player.position availableFoodItems with
    | none => ({ player with velocity := ⟨0, 0, 0⟩ }, foods, n)
    | some nearestFood =>
      let direction : Vec3 :=
        ⟨nearestFood.position.x - player.position.x,
         nearestFood.position.y - player.position.y,
         nearestFood.position.z - player.position.z⟩
      let dls := lengthSq direction
      -- velocity update (random speed drawn only in this branch);
      -- `normalize` divides by `sqrtQ` of the squared length
      let velRand : Vec3 × ℕ :=
        if dls > 1 / 10000 then
          let len := env.sqrtQ dls
          let speed := 2 + env.rand n * 1
          (⟨direction.x / len * speed, 0, direction.z / len * speed⟩, n + 1)
        else
          (⟨0, player.velocity.y, 0⟩, n)
      let velocity := velRand.1
      let quaternion :=
        if dls > 1 / 10000 then
          env.slerpLook player.position direction player.quaternion
        else player.quaternion
      -- jump trigger
      let horizontalDist :=
        env.sqrtQ ((nearestFood.position.x - player.position.x) ^ 2 +
          (nearestFood.position.z - player.position.z) ^ 2)
      let jump1 : Option Bool × Option ℚ :=
        if ¬ player.isJumping.getD false ∧
            nearestFood.position.y > player.position.y + 1 / 2 ∧
            horizontalDist < 2 then
          (some true, some jumpVelocity)
        else (player.isJumping, player.verticalVelocity)
      -- gravity and jump update
      let phys : ℚ × Option Bool × Option ℚ :=
        if jump1.1.getD false then
          let vv := jump1.2.getD 0 + gravity * delta
          let y := player.position.y + vv * delta
          if y ≤ 3 / 4 then (3 / 4, some false, some 0)
          else (y, jump1.1, some vv)
        else (3 / 4, jump1.1, some 0)
      -- horizontal position integration
      let position2 : Vec3 :=
        ⟨player.position.x + velocity.x * delta, phys.1,
         player.position.z + velocity.z * delta⟩
      -- consumption check against the pre-identified nearest food
      let cs := consumeStep position2 nearestFood player.score foods
      ({ player with
          position := position2, quaternion := quaternion,
          velocity := velocity,
          score := cs.1,
          isJumping := phys.2.1, verticalVelocity := phys.2.2 },
       cs.2, velRand.2)

/-- Sequential processing of the player list (the `forEach`): each player
sees the food list as mutated by the players before it. -/
def runPlayers (env : Env) (delta : ℚ) :
    List Player → List FoodItem → ℕ → List Player × List FoodItem × ℕ
  | [], foods, n => ([], foods, n)
  | p :: rest, foods, n =>
    let r1 := stepPlayer env delta p foods n
    let r2 := runPlayers env delta rest r1.2.1 r1.2.2
    (r1.1 :: r2.1, r2.2.1, r2.2.2)

/-- The step function `updateBuffetPlayers(players, foodItems, delta)`: deep-copies the
inputs, then processes every player in list order against the shared
food list.  Returns the new players and food items. -/
def updateBuffetPlayers (env : Env) (players : List Player)
    (foodItems : List FoodItem) (delta : ℚ) :
    List Player × List FoodItem :=
  let updatedPlayers := players.map copyPlayer
  let r := runPlayers env delta updatedPlayers foodItems 0
  (r.1, r.2.1)

/-- The caller's post-step clamp in `RaceSimulation.tsx` (lines 503–507):
`p.position.x = Math.max(-mapSize, Math.min(mapSize, p.position.x))`,
and likewise for `z`. -/
def clampPlayers (mapSize : ℚ) (players : List Player) : List Player :=
  players.map fun p =>
    { p with position :=
        ⟨max (-mapSize) (min mapSize p.position.x), p.position.y,
         max (-mapSize) (min mapSize p.position.z)⟩ }

/-- One frame of the 3D variant's game loop: the step followed by the
caller's clamp to `MAP_SIZE = 40`. -/
def stepThenClamp (env : Env) (players : List Player)
    (foodItems : List FoodItem) (delta : ℚ) :
    List Player × List FoodItem :=
  let r := updateBuffetPlayers env players foodItems delta
  (clampPlayers MAP_SIZE r.1, r.2)

/-- The projector `Vector4.projectTo3D` of `2Dbuffet.tsx`: `denominator = 5 + w`;
inside the `|denominator| < 0.0001` guard only the exact-zero case
returns `(x, y, z)` unscaled — any other near-zero denominator falls
through to the `scale = 5 / denominator` division. -/
def projectTo3D (v : Vec4Q) : Vec3 :=
  let denominator := 5 + v.w
  if |denominator| < 1 / 10000 then
    if denominator = 0 then ⟨v.x, v.y, v.z⟩
    else ⟨v.x * (5 / denominator), v.y * (5 / denominator), v.z * (5 / denominator)⟩
  else ⟨v.x * (5 / denominator), v.y * (5 / denominator), v.z * (5 / denominator)⟩

/-- Player initialization in `RaceSimulation.tsx` (lines 446–466):
position `(cos(angle)·radius, 0.5, sin(angle)·radius)` with
`radius = mapSize * 0.75`, zero velocity, zero score, `isJumping: false`,
`verticalVelocity: 0`.  `cosA`/`sinA` stand for `Math.cos(angle)` /
`Math.sin(angle)` and `quat` for the axis-angle quaternion, which are
irrational over ℚ. -/
def mkInitPlayer (i : ℤ) (cosA sinA : ℚ) (mapSize : ℚ) (quat : Quat)
    (color : String) : Player :=
  let radius := mapSize * (3 / 4)
  { id := i
    position := ⟨cosA * radius, 1 / 2, sinA * radius⟩
    quaternion := quat
    velocity := ⟨0, 0, 0⟩
    score := 0
    color := color
    isJumping := some false
    verticalVelocity := some 0 }

/-- Sum of all players' scores. -/
def sumScores (ps : List Player) : ℕ :=
  (ps.map Player.score).sum

/-- Number of food items with `consumed = true`. -/
def consumedCount (fs : List FoodItem) : ℕ :=
  (fs.filter (fun f => f.consumed)).length

/-- Pointwise food evolution within one step: same item (id, position,
type, color) and `consumed` only ever goes from `false` to `true`. -/
def FoodsMono (fs gs : List FoodItem) : Prop :=
  List.Forall₂ (fun a b => a.id = b.id ∧ a.position = b.position ∧
    a.type = b.type ∧ a.color = b.color ∧
    (a.consumed = true → b.consumed = true)) fs gs

/-- Ground invariant of a player: a non-airborne player rests exactly at
height 3/4, and no player is ever below 3/4. -/
def GroundInv (p : Player) : Prop :=
  (p.isJumping.getD false = false → p.position.y = 3 / 4) ∧
    3 / 4 ≤ p.position.y

/-! ### Concrete fixtures used by witnesses and counterexamples -/

/-- A trivial environment (all abstracted operations constant). -/
def env0 : Env := ⟨fun _ => 0, fun _ _ q => q, fun _ => 0⟩

/-- A player resting at the origin with zero score and zero velocity. -/
def basePlayer : Player :=
  ⟨0, ⟨0, 3 / 4, 0⟩, ⟨0, 0, 0, 1⟩, ⟨0, 0, 0⟩, 0, "p", some false, some 0⟩

/-- An already-consumed food item. -/
def consumedFood : FoodItem := ⟨0, ⟨1, 3 / 4, 0⟩, .cube, true, "f"⟩

/-- An unconsumed food item 5 units away on the x axis. -/
def farFood : FoodItem := ⟨0, ⟨5, 0, 0⟩, .cube, false, "f"⟩

/-- A non-airborne player at ground level `y = 0` (violates the resting
height). -/
def lowPlayer : Player :=
  ⟨0, ⟨0, 0, 0⟩, ⟨0, 0, 0, 1⟩, ⟨0, 0, 0⟩, 0, "p", some false, some 0⟩

/-- The agent of the single-tick consumption scenario: at `(0, 0.75, 0)`,
zero velocity, not airborne. -/
def c2Player : Player :=
  ⟨0, ⟨0, 3 / 4, 0⟩, ⟨0, 0, 0, 1⟩, ⟨0, 0, 0⟩, 0, "p", some false, some 0⟩

/-- The food item of the single-tick consumption scenario: unconsumed at
`(0, 0.75, 0.1)`. -/
def c2Food : FoodItem := ⟨0, ⟨0, 3 / 4, 1 / 10⟩, .sphere, false, "f"⟩

/-- Environment for the single-tick scenario: `sqrtQ` is the exact square
root at the one point where the scenario evaluates it
(`√(1/100) = 1/10`), the random stream is constantly 0 (speed
`2 + 0·1 = 2`, within the legal `[2, 3)` range). -/
def c2Env : Env :=
  ⟨fun q => if q = 1 / 100 then 1 / 10 else 0, fun _ _ q => q, fun _ => 0⟩

/-- The agent of the jump scenario: resting at the origin. -/
def c8Player : Player :=
  ⟨0, ⟨0, 3 / 4, 0⟩, ⟨0, 0, 0, 1⟩, ⟨0, 0, 0⟩, 0, "p", some false, some 0⟩

/-- The food of the jump scenario: directly above the agent at height 2
(more than 0.5 above, zero horizontal distance). -/
def c8Food : FoodItem := ⟨0, ⟨0, 2, 0⟩, .cube, false, "f"⟩

/-- Environment for the jump scenario: exact square root at the points
where the scenario evaluates it (`√(25/16) = 5/4`, `√0 = 0`). -/
def c8Env : Env :=
  ⟨fun q => if q = 25 / 16 then 5 / 4 else 0, fun _ _ q => q, fun _ => 0⟩

/-! ### Claim theorems -/

/-- C3: the near-zero guard of `projectTo3D` does not do what the spec
says.  At `w = -4.99999` the denominator is `0.00001`, so
`|5 + w| < 0.0001` holds, yet the function divides by the near-zero
denominator and returns `(500000, 0, 0)` instead of the unscaled
`(1, 0, 0)` — the exact-zero fallback inside the guard is the only case
that returns the input unscaled, contradicting the code's own comment
"Prevent division by zero or very small numbers". -/
theorem projectTo3D_divides_near_zero :
    |5 + (-(499999 / 100000) : ℚ)| < 1 / 10000 ∧
    projectTo3D ⟨1, 0, 0, -(499999 / 100000)⟩ = ⟨500000, 0, 0⟩ ∧
    (⟨500000, 0, 0⟩ : Vec3) ≠ ⟨1, 0, 0⟩ := by
  refine ⟨?_, ?_, ?_⟩
  · rw [show (5 + (-(499999 / 100000)) : ℚ) = 1 / 100000 by norm_num]
    rw [abs_of_pos (by norm_num)]
    norm_num
  · norm_num [projectTo3D]
  · intro h
    have := congrArg Vec3.x h
    norm_num at this

/-- C2 (counterexample): in the single-tick scenario — one agent at
`(0, 0.75, 0)`, one unconsumed food at `(0, 0.75, 0.1)` — a step with
`delta = 1` does NOT consume the food: the direction's squared length
`0.01` exceeds the movement epsilon `0.0001`, so the agent moves at
speed ≥ 2 for a full second, overshooting to `z = 2` and ending
1.9 units from the food, outside the 1.2 consumption radius.  The score
stays 0 and the food stays unconsumed. -/
theorem singleTick_delta_one_overshoots :
    (updateBuffetPlayers c2Env [c2Player] [c2Food] 1).1.map Player.score = [0] ∧
    (updateBuffetPlayers c2Env [c2Player] [c2Food] 1).2.map FoodItem.consumed = [false] := by
  norm_num [updateBuffetPlayers, runPlayers, stepPlayer, consumeStep, copyPlayer,
    findNearest, findNearestGo, consumeFood, distanceToSquared, lengthSq, c2Env,
    c2Player, c2Food, jumpVelocity, gravity]

/-- C2 (amended): in the same scenario a step with `delta = 0` does mark
the food consumed and set the score to 1 — the agent is already within
the 1.2 consumption radius and a zero-length tick produces no motion.
This holds for every environment (any square root, any random stream,
any orientation update). -/
theorem singleTick_delta_zero_consumes (env : Env) :
    (updateBuffetPlayers env [c2Player] [c2Food] 0).1.map Player.score = [1] ∧
    (updateBuffetPlayers env [c2Player] [c2Food] 0).2.map FoodItem.consumed = [true] := by
  norm_num [updateBuffetPlayers, runPlayers, stepPlayer, consumeStep, copyPlayer,
    findNearest, findNearestGo, consumeFood, distanceToSquared, lengthSq, c2Player,
    c2Food, jumpVelocity, gravity]

/-! ### Helper lemmas: counting and food-list evolution -/

theorem sumScores_cons (p : Player) (l : List Player) :
    sumScores (p :: l) = p.score + sumScores l := by
  simp [sumScores]

theorem consumedCount_cons (f : FoodItem) (l : List FoodItem) :
    consumedCount (f :: l) = (if f.consumed then 1 else 0) + consumedCount l := by
  by_cases h : f.consumed <;> simp [consumedCount, h]
  omega

theorem consumedCount_append (l r : List FoodItem) :
    consumedCount (l ++ r) = consumedCount l + consumedCount r := by
  simp [consumedCount, List.filter_append]

theorem consumedCount_le_length (l : List FoodItem) : consumedCount l ≤ l.length :=
  List.length_filter_le _ _

theorem foodsMono_refl (fs : List FoodItem) : FoodsMono fs fs := by
  induction fs with
  | nil => exact List.Forall₂.nil
  | cons f rest ih => exact List.Forall₂.cons ⟨rfl, rfl, rfl, rfl, id⟩ ih

theorem foodsMono_trans {a b c : List FoodItem} (h1 : FoodsMono a b)
    (h2 : FoodsMono b c) : FoodsMono a c := by
  induction h1 generalizing c with
  | nil => cases h2; exact List.Forall₂.nil
  | cons hab _ ih =>
    cases h2 with
    | cons hbc h2rest =>
      exact List.Forall₂.cons
        ⟨hab.1.trans hbc.1, hab.2.1.trans hbc.2.1, hab.2.2.1.trans hbc.2.2.1,
         hab.2.2.2.1.trans hbc.2.2.2.1, fun h => hbc.2.2.2.2 (hab.2.2.2.2 h)⟩
        (ih h2rest)

theorem foodsMono_append {a b c d : List FoodItem} (h1 : FoodsMono a b)
    (h2 : FoodsMono c d) : FoodsMono (a ++ c) (b ++ d) := by
  induction h1 with
  | nil => exact h2
  | cons hab _ ih => exact List.Forall₂.cons hab ih

/-- The commit `consumeFood` either leaves the list untouched (reporting `false`) or
flips exactly one unconsumed item to consumed (reporting `true`). -/
theorem consumeFood_eq (fid : ℤ) (fs : List FoodItem) :
    consumeFood fid fs = (fs, false) ∨
    ∃ l f rest, fs = l ++ f :: rest ∧ f.consumed = false ∧
      consumeFood fid fs = (l ++ { f with consumed := true } :: rest, true) := by
  induction fs with
  | nil => left; rfl
  | cons f rest ih =>
    by_cases hid : f.id = fid
    · by_cases hc : f.consumed
      · left; simp [consumeFood, hid, hc]
      · right
        refine ⟨[], f, rest, rfl, by simpa using hc, ?_⟩
        simp [consumeFood, hid, hc]
    · rcases ih with h | ⟨l, g, r2, hfs, hgc, hcf⟩
      · left; simp [consumeFood, hid, h]
      · right
        refine ⟨f :: l, g, r2, by simp [hfs], hgc, ?_⟩
        subst hfs
        simp [consumeFood, hid, hcf]

/-- Consolidated facts about one consumption commit: length preserved,
consumed count up by exactly the reported flag, and pointwise
monotonicity. -/
theorem consumeFood_spec (fid : ℤ) (fs : List FoodItem) :
    (consumeFood fid fs).1.length = fs.length ∧
    consumedCount (consumeFood fid fs).1 =
      consumedCount fs + (if (consumeFood fid fs).2 then 1 else 0) ∧
    FoodsMono fs (consumeFood fid fs).1 := by
  rcases consumeFood_eq fid fs with h | ⟨l, f, rest, hfs, hfc, h⟩
  · rw [h]; exact ⟨rfl, by simp, foodsMono_refl fs⟩
  · rw [h]
    subst hfs
    refine ⟨by simp, ?_, ?_⟩
    · simp [consumedCount_append, consumedCount_cons, hfc]
      omega
    · exact foodsMono_append (foodsMono_refl l)
        (List.Forall₂.cons ⟨rfl, rfl, rfl, rfl, fun _ => rfl⟩ (foodsMono_refl rest))

/-- Facts about one consumption commit, with the score folded in: the
food-list length is preserved; the score and the consumed count rise
together, by at most 1; foods evolve monotonically. -/
theorem consumeStep_spec (pos2 : Vec3) (nf : FoodItem) (sc : ℕ)
    (foods : List FoodItem) :
    (consumeStep pos2 nf sc foods).2.length = foods.length ∧
    (consumeStep pos2 nf sc foods).1 + consumedCount foods =
      sc + consumedCount (consumeStep pos2 nf sc foods).2 ∧
    sc ≤ (consumeStep pos2 nf sc foods).1 ∧
    (consumeStep pos2 nf sc foods).1 ≤ sc + 1 ∧
    consumedCount foods ≤ consumedCount (consumeStep pos2 nf sc foods).2 ∧
    consumedCount (consumeStep pos2 nf sc foods).2 ≤ consumedCount foods + 1 ∧
    FoodsMono foods (consumeStep pos2 nf sc foods).2 := by
  unfold consumeStep
  split
  · obtain ⟨hl, hc, hm⟩ := consumeFood_spec nf.id foods
    by_cases hb : (consumeFood nf.id foods).2 <;>
      simp only [hb, if_true, if_false, Bool.false_eq_true, Bool.true_eq_false,
        ite_true, ite_false] at hc ⊢ <;>
      refine ⟨hl, ?_, ?_, ?_, ?_, ?_, hm⟩ <;> omega
  · refine ⟨rfl, ?_, ?_, ?_, ?_, ?_, foodsMono_refl foods⟩ <;> dsimp only <;> omega

/-- Consolidated per-player step facts, lifted to `stepPlayer`. -/
theorem stepPlayer_spec (env : Env) (delta : ℚ) (p : Player)
    (foods : List FoodItem) (n : ℕ) :
    (stepPlayer env delta p foods n).2.1.length = foods.length ∧
    (stepPlayer env delta p foods n).1.score + consumedCount foods =
      p.score + consumedCount (stepPlayer env delta p foods n).2.1 ∧
    p.score ≤ (stepPlayer env delta p foods n).1.score ∧
    (stepPlayer env delta p foods n).1.score ≤ p.score + 1 ∧
    consumedCount foods ≤ consumedCount (stepPlayer env delta p foods n).2.1 ∧
    consumedCount (stepPlayer env delta p foods n).2.1 ≤ consumedCount foods + 1 ∧
    FoodsMono foods (stepPlayer env delta p foods n).2.1 := by
  unfold stepPlayer
  dsimp only
  split
  · refine ⟨rfl, ?_, ?_, ?_, ?_, ?_, foodsMono_refl foods⟩ <;>
      first
        | omega
        | (dsimp only; try omega)
  · split
    · refine ⟨rfl, ?_, ?_, ?_, ?_, ?_, foodsMono_refl foods⟩ <;>
        first
          | omega
          | (dsimp only; try omega)
    · exact ⟨(consumeStep_spec _ _ _ _).1, (consumeStep_spec _ _ _ _).2.1,
        (consumeStep_spec _ _ _ _).2.2.1, (consumeStep_spec _ _ _ _).2.2.2.1,
        (consumeStep_spec _ _ _ _).2.2.2.2.1, (consumeStep_spec _ _ _ _).2.2.2.2.2.1,
        (consumeStep_spec _ _ _ _).2.2.2.2.2.2⟩

/-- The per-player facts accumulated over the whole player loop: food
count preserved, total score and consumed count rise in lockstep, at
most one new consumption per player, pointwise food monotonicity, and
per-player score bounds. -/
theorem runPlayers_spec (env : Env) (delta : ℚ) :
    ∀ (ps : List Player) (foods : List FoodItem) (n : ℕ),
    (runPlayers env delta ps foods n).2.1.length = foods.length ∧
    sumScores (runPlayers env delta ps foods n).1 + consumedCount foods =
      sumScores ps + consumedCount (runPlayers env delta ps foods n).2.1 ∧
    consumedCount foods ≤ consumedCount (runPlayers env delta ps foods n).2.1 ∧
    consumedCount (runPlayers env delta ps foods n).2.1 ≤
      consumedCount foods + ps.length ∧
    FoodsMono foods (runPlayers env delta ps foods n).2.1 ∧
    List.Forall₂ (fun p q => p.score ≤ q.score ∧ q.score ≤ p.score + 1) ps
      (runPlayers env delta ps foods n).1 := by
  intro ps
  induction ps with
  | nil =>
    intro foods n
    exact ⟨rfl, rfl, le_refl _, by simp [runPlayers], foodsMono_refl foods,
      List.Forall₂.nil⟩
  | cons p rest ih =>
    intro foods n
    obtain ⟨h1, h2, h3, h4, h5, h6, h7⟩ := stepPlayer_spec env delta p foods n
    obtain ⟨g1, g2, g3, g4, g5, g6⟩ :=
      ih (stepPlayer env delta p foods n).2.1 (stepPlayer env delta p foods n).2.2
    simp only [runPlayers]
    refine ⟨g1.trans h1, ?_, ?_, ?_, foodsMono_trans h7 g5,
      List.Forall₂.cons ⟨h3, h4⟩ g6⟩
    · rw [sumScores_cons, sumScores_cons]
      omega
    · omega
    · rw [List.length_cons]
      omega

/-- C1: score conservation.  If the sum of all scores equals the number
of consumed food items on entry, the same equality holds after one call
to `updateBuffetPlayers`, and the total score never exceeds the total
food count.  (Each commit re-checks `consumed`, so no food item is
counted toward two scores.) -/
theorem score_conservation (env : Env) (players : List Player)
    (foods : List FoodItem) (delta : ℚ)
    (h : sumScores players = consumedCount foods) :
    sumScores (updateBuffetPlayers env players foods delta).1 =
      consumedCount (updateBuffetPlayers env players foods delta).2 ∧
    sumScores (updateBuffetPlayers env players foods delta).1 ≤ foods.length := by
  simp only [updateBuffetPlayers]
  obtain ⟨g1, g2, g3, g4, g5, g6⟩ :=
    runPlayers_spec env delta (players.map copyPlayer) foods 0
  have hc : sumScores (players.map copyPlayer) = sumScores players := by
    simp only [sumScores, List.map_map]
    rfl
  have hle := consumedCount_le_length
    (runPlayers env delta (players.map copyPlayer) foods 0).2.1
  rw [hc, h] at g2
  exact ⟨by omega, by omega⟩

/-- C1 witness: a concrete state (one zero-score player, one unconsumed
food item) satisfying the conservation hypothesis. -/
theorem score_conservation_witness :
    sumScores (updateBuffetPlayers env0 [basePlayer] [farFood] 1).1 =
      consumedCount (updateBuffetPlayers env0 [basePlayer] [farFood] 1).2 :=
  (score_conservation env0 [basePlayer] [farFood] 1
    (by simp [sumScores, consumedCount, basePlayer, farFood])).1

/-- C5: monotonicity.  Pointwise, a consumed food item stays consumed
across a step, and no player's score decreases. -/
theorem monotonic_step (env : Env) (players : List Player)
    (foods : List FoodItem) (delta : ℚ) :
    List.Forall₂ (fun f g => f.consumed = true → g.consumed = true) foods
      (updateBuffetPlayers env players foods delta).2 ∧
    List.Forall₂ (fun p q => p.score ≤ q.score) players
      (updateBuffetPlayers env players foods delta).1 := by
  simp only [updateBuffetPlayers]
  obtain ⟨g1, g2, g3, g4, g5, g6⟩ :=
    runPlayers_spec env delta (players.map copyPlayer) foods 0
  constructor
  · exact g5.imp fun a b hab => hab.2.2.2.2
  · rw [List.forall₂_map_left_iff] at g6
    exact g6.imp fun a b hab => hab.1

/-- C10: at most one consumption per player per tick.  Each player's
score rises by at most 1 in one step, and the number of consumed food
items rises by at most the number of players. -/
theorem at_most_one_consumption (env : Env) (players : List Player)
    (foods : List FoodItem) (delta : ℚ) :
    List.Forall₂ (fun p q => q.score ≤ p.score + 1) players
      (updateBuffetPlayers env players foods delta).1 ∧
    consumedCount (updateBuffetPlayers env players foods delta).2 ≤
      consumedCount foods + players.length := by
  simp only [updateBuffetPlayers]
  obtain ⟨g1, g2, g3, g4, g5, g6⟩ :=
    runPlayers_spec env delta (players.map copyPlayer) foods 0
  constructor
  · rw [List.forall₂_map_left_iff] at g6
    exact g6.imp fun a b hab => hab.2
  · simpa using g4

/-- With every food item consumed, the loop body only zeroes the
player's velocity (lines 65–69) and leaves everything else untouched. -/
theorem stepPlayer_all_consumed (env : Env) (delta : ℚ) (p : Player)
    (foods : List FoodItem) (n : ℕ) (h : ∀ f ∈ foods, f.consumed = true) :
    stepPlayer env delta p foods n = ({ p with velocity := ⟨0, 0, 0⟩ }, foods, n) := by
  have hf : foods.filter (fun food => !food.consumed) = [] := by
    rw [List.filter_eq_nil_iff]
    intro f hfm
    simp [h f hfm]
  unfold stepPlayer
  simp [hf]

/-- The all-consumed case propagated through the player loop. -/
theorem runPlayers_all_consumed (env : Env) (delta : ℚ) :
    ∀ (ps : List Player) (foods : List FoodItem) (n : ℕ),
    (∀ f ∈ foods, f.consumed = true) →
    runPlayers env delta ps foods n =
      (ps.map (fun p => { p with velocity := ⟨0, 0, 0⟩ }), foods, n) := by
  intro ps
  induction ps with
  | nil => intro foods n _; rfl
  | cons p rest ih =>
    intro foods n h
    simp only [runPlayers, stepPlayer_all_consumed env delta p foods n h]
    rw [ih foods n h]
    simp

/-- The all-consumed case at the top level: the step returns the food
list unchanged and every player with only its velocity zeroed. -/
theorem updateBuffetPlayers_all_consumed (env : Env) (players : List Player)
    (foods : List FoodItem) (delta : ℚ) (h : ∀ f ∈ foods, f.consumed = true) :
    updateBuffetPlayers env players foods delta =
      (players.map (fun p => { copyPlayer p with velocity := ⟨0, 0, 0⟩ }), foods) := by
  unfold updateBuffetPlayers
  dsimp only
  rw [runPlayers_all_consumed env delta (players.map copyPlayer) foods 0 h]
  rw [List.map_map]
  rfl

/-- C7: idle idempotence.  When every food item is consumed, one step
returns the food list unchanged and each player with position,
orientation and score exactly equal to the input and velocity zeroed;
and stepping the resulting state again — with any delta and any
environment — returns it unchanged, so repetition produces no drift. -/
theorem idle_step (env : Env) (players : List Player) (foods : List FoodItem)
    (delta : ℚ) (h : ∀ f ∈ foods, f.consumed = true) :
    (updateBuffetPlayers env players foods delta).2 = foods ∧
    List.Forall₂ (fun p q => q.position = p.position ∧ q.quaternion = p.quaternion ∧
      q.score = p.score ∧ q.velocity = ⟨0, 0, 0⟩) players
      (updateBuffetPlayers env players foods delta).1 ∧
    ∀ (env2 : Env) (delta2 : ℚ),
      updateBuffetPlayers env2 (updateBuffetPlayers env players foods delta).1
        (updateBuffetPlayers env players foods delta).2 delta2 =
        updateBuffetPlayers env players foods delta := by
  rw [updateBuffetPlayers_all_consumed env players foods delta h]
  refine ⟨rfl, ?_, ?_⟩
  · rw [List.forall₂_map_right_iff, List.forall₂_same]
    intro x _
    exact ⟨rfl, rfl, rfl, rfl⟩
  · intro env2 delta2
    rw [updateBuffetPlayers_all_consumed env2 _ foods delta2 h]
    rw [List.map_map]
    rfl

/-- C7 witness: a consumed-out world with one player. -/
theorem idle_step_witness :
    (updateBuffetPlayers env0 [basePlayer] [consumedFood] 1).2 = [consumedFood] :=
  (idle_step env0 [basePlayer] [consumedFood] 1
    (by intro f hf; simp at hf; rw [hf]; rfl)).1

/-- Componentwise equality of `Vec3`. -/
theorem vec3_eq {a b : Vec3} (hx : a.x = b.x) (hy : a.y = b.y)
    (hz : a.z = b.z) : a = b := by
  cases a; cases b; simp_all

/-- The ground-clamping shape of the gravity/jump update (lines 116–127):
whatever the jump state, the resulting height is at least 3/4, and a
non-airborne result rests exactly at 3/4. -/
theorem groundInv_of_phys (c : Prop) [Decidable c] (y1 : ℚ)
    (j1 j2 : Option Bool) (v1 : Option ℚ) (hc : c → j1.getD false = true) :
    ((if c then (if y1 ≤ 3 / 4 then ((3 : ℚ) / 4, some false, some (0 : ℚ))
        else (y1, j1, v1)) else (3 / 4, j2, some 0)).2.1.getD false = false →
      (if c then (if y1 ≤ 3 / 4 then ((3 : ℚ) / 4, some false, some (0 : ℚ))
        else (y1, j1, v1)) else (3 / 4, j2, some 0)).1 = 3 / 4) ∧
    3 / 4 ≤ (if c then (if y1 ≤ 3 / 4 then ((3 : ℚ) / 4, some false, some (0 : ℚ))
        else (y1, j1, v1)) else (3 / 4, j2, some 0)).1 := by
  by_cases hcc : c
  · by_cases hy : y1 ≤ 3 / 4
    · rw [if_pos hcc, if_pos hy]
      exact ⟨fun _ => rfl, le_refl _⟩
    · rw [if_pos hcc, if_neg hy]
      refine ⟨fun hf => ?_, le_of_lt (not_le.mp hy)⟩
      have hj := hc hcc
      dsimp only at hf
      rw [hf] at hj
      exact Bool.noConfusion hj
  · rw [if_neg hcc]
    exact ⟨fun _ => rfl, le_refl _⟩

/-- One loop body either leaves the player's position and airborne flag
untouched (the no-food early returns) or establishes the ground
invariant outright (the physics branch clamps to the resting height). -/
theorem stepPlayer_ground (env : Env) (delta : ℚ) (p : Player)
    (foods : List FoodItem) (n : ℕ) :
    ((stepPlayer env delta p foods n).1.position = p.position ∧
     (stepPlayer env delta p foods n).1.isJumping = p.isJumping) ∨
    GroundInv (stepPlayer env delta p foods n).1 := by
  unfold stepPlayer
  dsimp only
  split
  · left; exact ⟨rfl, rfl⟩
  · split
    · left; exact ⟨rfl, rfl⟩
    · right
      unfold GroundInv
      dsimp only
      exact groundInv_of_phys _ _ _ _ _ (fun h => h)

/-- The ground invariant propagated through the player loop. -/
theorem runPlayers_ground (env : Env) (delta : ℚ) :
    ∀ (ps : List Player) (foods : List FoodItem) (n : ℕ),
    (∀ p ∈ ps, GroundInv p) →
    ∀ q ∈ (runPlayers env delta ps foods n).1, GroundInv q := by
  intro ps
  induction ps with
  | nil => intro foods n _ q hq; simp [runPlayers] at hq
  | cons p rest ih =>
    intro foods n h q hq
    simp only [runPlayers] at hq
    rw [List.mem_cons] at hq
    rcases hq with rfl | hq
    · rcases stepPlayer_ground env delta p foods n with ⟨h1, h2⟩ | hg
      · have hp := h p (List.mem_cons_self p rest)
        unfold GroundInv at hp ⊢
        rw [h1, h2]
        exact hp
      · exact hg
    · exact ih _ _ (fun r hr => h r (List.mem_cons_of_mem p hr)) q hq

/-- C4 (amended): the step function preserves the ground invariant.
From any state in which every agent satisfies it (non-airborne exactly
at `y = 0.75`, and never below `0.75`), every agent of the stepped state
satisfies it as well. -/
theorem ground_invariant_step (env : Env) (players : List Player)
    (foods : List FoodItem) (delta : ℚ)
    (h : ∀ p ∈ players, GroundInv p) :
    ∀ q ∈ (updateBuffetPlayers env players foods delta).1, GroundInv q := by
  intro q hq
  simp only [updateBuffetPlayers] at hq
  refine runPlayers_ground env delta (players.map copyPlayer) foods 0 ?_ q hq
  intro r hr
  rw [List.mem_map] at hr
  obtain ⟨p0, hp0, rfl⟩ := hr
  exact h p0 hp0

/-- C4 (counterexample): the freshly initialized player of
`RaceSimulation.tsx` is created at `y = 0.5` with `isJumping: false` —
not at the resting height `0.75` — so the claimed invariant fails on the
initial state, before the first step. -/
theorem initPlayer_below_resting_height :
    (mkInitPlayer 0 1 0 40 ⟨0, 0, 0, 1⟩ "#FF5733").isJumping.getD false = false ∧
    (mkInitPlayer 0 1 0 40 ⟨0, 0, 0, 1⟩ "#FF5733").position.y ≠ 3 / 4 := by
  refine ⟨rfl, ?_⟩
  norm_num [mkInitPlayer]

/-- C4 witness: the invariant instantiated on a resting player. -/
theorem ground_invariant_step_witness :
    GroundInv basePlayer :=
  ground_invariant_step env0 [basePlayer] [farFood] 1
    (by
      intro p hp
      simp at hp
      rw [hp]
      exact ⟨fun _ => rfl, le_refl _⟩)
    basePlayer
    (by
      norm_num [updateBuffetPlayers, runPlayers, stepPlayer, consumeStep, copyPlayer,
        findNearest, findNearestGo, consumeFood, distanceToSquared, lengthSq,
        env0, basePlayer, farFood, jumpVelocity, gravity])

/-- At `delta = 0` the gravity/jump update returns exactly the input
height, provided the player satisfied the ground invariant. -/
theorem physY_zero_delta (c : Prop) [Decidable c] (y0 w : ℚ)
    (j1 j2 : Option Bool) (v1 : Option ℚ)
    (h1 : ¬ c → y0 = 3 / 4) (h2 : 3 / 4 ≤ y0) :
    (if c then (if y0 + w * 0 ≤ 3 / 4 then ((3 : ℚ) / 4, some false, some (0 : ℚ))
        else (y0 + w * 0, j1, v1)) else (3 / 4, j2, some 0)).1 = y0 := by
  by_cases hcc : c
  · by_cases hy : y0 + w * 0 ≤ 3 / 4
    · rw [if_pos hcc, if_pos hy]
      exact le_antisymm h2 (by linarith)
    · rw [if_pos hcc, if_neg hy]
      ring
  · rw [if_neg hcc]
    exact (h1 hcc).symm

/-- If the jump state resulting from the trigger check is not airborne,
the player was not airborne on entry. -/
theorem trigger_not_airborne (T : Prop) [Decidable T] (j : Option Bool)
    (v : Option ℚ)
    (hnc : ¬ (if T then (some true, some jumpVelocity)
      else (j, v)).1.getD false = true) :
    j.getD false = false := by
  by_cases hT : T
  · exact absurd (by rw [if_pos hT]; rfl) hnc
  · rw [if_neg hT] at hnc
    simpa using hnc

/-- At `delta = 0` the loop body leaves a ground-invariant player's
position exactly unchanged. -/
theorem stepPlayer_zero_delta (env : Env) (p : Player)
    (foods : List FoodItem) (n : ℕ) (h : GroundInv p) :
    (stepPlayer env 0 p foods n).1.position = p.position := by
  obtain ⟨h1, h2⟩ := h
  unfold stepPlayer
  dsimp only
  split
  · rfl
  · split
    · rfl
    · refine vec3_eq (by dsimp only; ring) ?_ (by dsimp only; ring)
      dsimp only
      exact physY_zero_delta _ _ _ _ _ _
        (fun hnc => h1 (trigger_not_airborne _ _ _ hnc)) h2

/-- The zero-delta fact propagated through the player loop. -/
theorem runPlayers_zero_delta (env : Env) :
    ∀ (ps : List Player) (foods : List FoodItem) (n : ℕ),
    (∀ p ∈ ps, GroundInv p) →
    List.Forall₂ (fun p q => q.position = p.position) ps
      (runPlayers env 0 ps foods n).1 := by
  intro ps
  induction ps with
  | nil => intro foods n _; exact List.Forall₂.nil
  | cons p rest ih =>
    intro foods n h
    simp only [runPlayers]
    exact List.Forall₂.cons
      (stepPlayer_zero_delta env p foods n (h p (List.mem_cons_self p rest)))
      (ih _ _ (fun r hr => h r (List.mem_cons_of_mem p hr)))

/-- C9 (amended): a zero-length tick produces no motion — for every
input state whose agents satisfy the ground invariant, a step with
`delta = 0` leaves every agent's position (all three components) exactly
equal to its input value. -/
theorem zero_delta_noop (env : Env) (players : List Player)
    (foods : List FoodItem)
    (h : ∀ p ∈ players, GroundInv p) :
    List.Forall₂ (fun p q => q.position = p.position) players
      (updateBuffetPlayers env players foods 0).1 := by
  simp only [updateBuffetPlayers]
  have hall : ∀ p ∈ players.map copyPlayer, GroundInv p := by
    intro r hr
    rw [List.mem_map] at hr
    obtain ⟨p0, hp0, rfl⟩ := hr
    exact h p0 hp0
  have := runPlayers_zero_delta env (players.map copyPlayer) foods 0 hall
  rw [List.forall₂_map_left_iff] at this
  exact this.imp fun a b hb => hb

/-- C9 (counterexample): with a non-airborne agent at `y = 0` (and one
unconsumed food item so the early return is not taken), a step with
`delta = 0` moves the agent: the not-airborne branch snaps `y` to the
resting height `0.75`, so the output position differs from the input. -/
theorem zero_delta_moves_player :
    (updateBuffetPlayers env0 [lowPlayer] [farFood] 0).1.map Player.position =
      [⟨0, 3 / 4, 0⟩] ∧
    lowPlayer.position = ⟨0, 0, 0⟩ ∧
    (⟨0, 3 / 4, 0⟩ : Vec3) ≠ ⟨0, 0, 0⟩ := by
  refine ⟨?_, rfl, ?_⟩
  · norm_num [updateBuffetPlayers, runPlayers, stepPlayer, consumeStep, copyPlayer,
      findNearest, findNearestGo, consumeFood, distanceToSquared, lengthSq,
      env0, lowPlayer, farFood, jumpVelocity, gravity]
  · intro hv
    have := congrArg Vec3.y hv
    norm_num at this

/-- C9 witness: the amended theorem applied to a resting player. -/
theorem zero_delta_noop_witness :
    List.Forall₂ (fun p q => q.position = p.position) [basePlayer]
      (updateBuffetPlayers env0 [basePlayer] [farFood] 0).1 :=
  zero_delta_noop env0 [basePlayer] [farFood]
    (by
      intro p hp
      simp at hp
      rw [hp]
      exact ⟨fun _ => rfl, le_refl _⟩)

/-- C6: arena bounds.  After a step composed with the caller's post-step
clamp (`RaceSimulation.tsx`, `mapSize = 40`), every agent's horizontal
position lies in `[-MAP_SIZE, MAP_SIZE]` on both axes. -/
theorem arena_bounds (env : Env) (players : List Player)
    (foods : List FoodItem) (delta : ℚ) :
    ∀ q ∈ (stepThenClamp env players foods delta).1,
      -MAP_SIZE ≤ q.position.x ∧ q.position.x ≤ MAP_SIZE ∧
      -MAP_SIZE ≤ q.position.z ∧ q.position.z ≤ MAP_SIZE := by
  intro q hq
  simp only [stepThenClamp, clampPlayers] at hq
  rw [List.mem_map] at hq
  obtain ⟨p0, _, rfl⟩ := hq
  dsimp only
  refine ⟨le_max_left _ _, max_le (by norm_num [MAP_SIZE]) (min_le_left _ _),
    le_max_left _ _, max_le (by norm_num [MAP_SIZE]) (min_le_left _ _)⟩

/-- C6 witness: the bounds instantiated on the output of a concrete
step-and-clamp. -/
theorem arena_bounds_witness :
    -MAP_SIZE ≤ basePlayer.position.x ∧ basePlayer.position.x ≤ MAP_SIZE ∧
    -MAP_SIZE ≤ basePlayer.position.z ∧ basePlayer.position.z ≤ MAP_SIZE :=
  arena_bounds env0 [basePlayer] [] 1 basePlayer
    (by
      norm_num [stepThenClamp, clampPlayers, updateBuffetPlayers, runPlayers,
        stepPlayer, consumeStep, copyPlayer, findNearest, findNearestGo,
        consumeFood, distanceToSquared, lengthSq, env0, basePlayer, MAP_SIZE,
        min_def, max_def])

/-- C8 (amended): jump trigger and arc, per loop body.  Let `nf` be the
nearest unconsumed food of player `p`.  (a) If `p` is not airborne, `nf`
sits more than 0.5 above `p`, and the horizontal distance is below 2,
the step sets the airborne flag and launches at `verticalVelocity = 8` —
and then applies gravity and integrates within the same tick, so the
step's output has `verticalVelocity = 8 + gravity·delta` and
`y = y₀ + (8 + gravity·delta)·delta` (stated here for ticks that leave
the agent above the resting height).  (b) While airborne the next step
decreases the vertical velocity by `18·delta` and moves `y` by the new
velocity times `delta`, clamping to 0.75 and landing when the arc
reaches or crosses the resting height.  (c) The resulting height never
ends a step below 0.75. -/
theorem jump_trigger_arc (env : Env) (delta : ℚ) (p : Player)
    (foods : List FoodItem) (n : ℕ) (nf : FoodItem)
    (hnf : findNearest p.position
      (foods.filter (fun food => !food.consumed)) = some nf) :
    (p.isJumping.getD false = false →
      nf.position.y > p.position.y + 1 / 2 →
      env.sqrtQ ((nf.position.x - p.position.x) ^ 2 +
        (nf.position.z - p.position.z) ^ 2) < 2 →
      3 / 4 < p.position.y + (jumpVelocity + gravity * delta) * delta →
      (stepPlayer env delta p foods n).1.isJumping = some true ∧
      (stepPlayer env delta p foods n).1.verticalVelocity =
        some (jumpVelocity + gravity * delta) ∧
      (stepPlayer env delta p foods n).1.position.y =
        p.position.y + (jumpVelocity + gravity * delta) * delta) ∧
    (p.isJumping.getD false = true →
      (3 / 4 < p.position.y +
          (p.verticalVelocity.getD 0 + gravity * delta) * delta →
        (stepPlayer env delta p foods n).1.isJumping = p.isJumping ∧
        (stepPlayer env delta p foods n).1.verticalVelocity =
          some (p.verticalVelocity.getD 0 + gravity * delta) ∧
        (stepPlayer env delta p foods n).1.position.y =
          p.position.y + (p.verticalVelocity.getD 0 + gravity * delta) * delta) ∧
      (p.position.y + (p.verticalVelocity.getD 0 + gravity * delta) * delta ≤
          3 / 4 →
        (stepPlayer env delta p foods n).1.position.y = 3 / 4 ∧
        (stepPlayer env delta p foods n).1.isJumping = some false ∧
        (stepPlayer env delta p foods n).1.verticalVelocity = some 0)) ∧
    3 / 4 ≤ (stepPlayer env delta p foods n).1.position.y := by
  have hne : ¬ (foods.filter (fun food => !food.consumed)).isEmpty = true := by
    intro hE
    rw [List.isEmpty_iff] at hE
    rw [hE] at hnf
    exact Option.noConfusion hnf
  unfold stepPlayer
  dsimp only
  rw [if_neg hne, hnf]
  dsimp only
  refine ⟨fun h1 h2 h3 h4 => ?_, fun hj => ⟨fun hgt => ?_, fun hle => ?_⟩, ?_⟩
  · have hcond : ¬ p.isJumping.getD false = true ∧
        nf.position.y > p.position.y + 1 / 2 ∧
        env.sqrtQ ((nf.position.x - p.position.x) ^ 2 +
          (nf.position.z - p.position.z) ^ 2) < 2 := ⟨by simp [h1], h2, h3⟩
    rw [if_pos hcond]
    dsimp only
    simp only [Option.getD_some]
    rw [if_pos trivial, if_neg (not_le.mpr h4)]
    exact ⟨rfl, rfl, rfl⟩
  · have hncond : ¬ (¬ p.isJumping.getD false = true ∧
        nf.position.y > p.position.y + 1 / 2 ∧
        env.sqrtQ ((nf.position.x - p.position.x) ^ 2 +
          (nf.position.z - p.position.z) ^ 2) < 2) := fun hc => hc.1 hj
    rw [if_neg hncond]
    dsimp only
    rw [if_pos hj, if_neg (not_le.mpr hgt)]
    exact ⟨rfl, rfl, rfl⟩
  · have hncond : ¬ (¬ p.isJumping.getD false = true ∧
        nf.position.y > p.position.y + 1 / 2 ∧
        env.sqrtQ ((nf.position.x - p.position.x) ^ 2 +
          (nf.position.z - p.position.z) ^ 2) < 2) := fun hc => hc.1 hj
    rw [if_neg hncond]
    dsimp only
    rw [if_pos hj, if_pos hle]
    exact ⟨rfl, rfl, rfl⟩
  · exact (groundInv_of_phys _ _ _ _ _ (fun h => h)).2

/-- C8 (counterexample): in the concrete jump scenario (resting agent at
`(0, 0.75, 0)`, food at `(0, 2, 0)`, `delta = 0.1`) the trigger
conditions hold and the step does set the airborne flag — but the step's
output `verticalVelocity` is `8 − 18·0.1 = 6.2`, not the launch value 8,
because gravity is applied within the same tick. -/
theorem jump_launch_counterexample :
    c8Player.isJumping.getD false = false ∧
    c8Food.position.y > c8Player.position.y + 1 / 2 ∧
    c8Env.sqrtQ ((c8Food.position.x - c8Player.position.x) ^ 2 +
      (c8Food.position.z - c8Player.position.z) ^ 2) < 2 ∧
    (stepPlayer c8Env (1 / 10) c8Player [c8Food] 0).1.isJumping = some true ∧
    (stepPlayer c8Env (1 / 10) c8Player [c8Food] 0).1.verticalVelocity =
      some (31 / 5) ∧
    (31 : ℚ) / 5 ≠ jumpVelocity := by
  refine ⟨rfl, by norm_num [c8Player, c8Food], by norm_num [c8Env, c8Player, c8Food],
    ?_, ?_, by norm_num [jumpVelocity]⟩ <;>
  norm_num [stepPlayer, consumeStep, findNearest, findNearestGo, consumeFood,
    distanceToSquared, lengthSq, c8Env, c8Player, c8Food, jumpVelocity, gravity]

/-- C8 witness: the trigger clause of the amended theorem applied to the
concrete jump scenario. -/
theorem jump_trigger_arc_witness :
    (stepPlayer c8Env (1 / 10) c8Player [c8Food] 0).1.isJumping = some true ∧
    (stepPlayer c8Env (1 / 10) c8Player [c8Food] 0).1.verticalVelocity =
      some (jumpVelocity + gravity * (1 / 10)) ∧
    (stepPlayer c8Env (1 / 10) c8Player [c8Food] 0).1.position.y =
      c8Player.position.y + (jumpVelocity + gravity * (1 / 10)) * (1 / 10) :=
  (jump_trigger_arc c8Env (1 / 10) c8Player [c8Food] 0 c8Food
    (by norm_num [findNearest, findNearestGo, distanceToSquared, c8Player, c8Food])).1
    rfl
    (by norm_num [c8Player, c8Food])
    (by norm_num [c8Env, c8Player, c8Food])
    (by norm_num [c8Player, jumpVelocity, gravity])
